import Mathlib

/-!
Verification development for the opsworks-easy-deploy tool.

The definitions below are a shallow embedding of `src/easy_deploy/easy_deploy.py`
(the multi-ELB variant, which the design document designates as authoritative
over the legacy single-ELB variant in `src/opsworks-easy-deploy/easy_deploy.py`).
Remote API responses are passed in as explicit data; wall-clock time is passed
as an explicit elapsed value; `sys.exit(1)` paths are modelled as explicit
abort outcomes.
-/

namespace EasyDeploy

/-- Record returned by the deployments directory for one deployment, as consumed
by `Operation._poll_deployment_complete`.  Timestamps are modelled as epoch
seconds (the source parses them with `arrow.get` and subtracts). -/
structure DeploymentRecord where
  deploymentId : String
  status : String
  createdAt : Int
  completedAt : Int
deriving DecidableEq, Repr

/-- Embedding of `Operation._get_deployment_duration`: the timedelta
`completed_at - started_at`, in seconds. -/
def get_deployment_duration (d : DeploymentRecord) : Int :=
  d.completedAt - d.createdAt

/-- Seconds field of a Python `timedelta` holding `totalSeconds` seconds:
Python normalises to `days = totalSeconds // 86400` (floor) and
`seconds = totalSeconds - days * 86400`, i.e. floor-mod, which `Int.emod`
matches for the positive modulus 86400.  The source logs
`self._get_deployment_duration(each).seconds`, hence this truncation. -/
def timedelta_seconds (totalSeconds : Int) : Int :=
  totalSeconds % 86400

/-- Outcome of one iteration of the `while True` polling loop in
`Operation._poll_deployment_complete`. -/
inductive PollStepResult where
  | success (completedAt : Int) (loggedSeconds : Int)
  | failed (loggedSeconds : Int)
  | timeoutAbort
  | sleep20
deriving DecidableEq, Repr

/-- Embedding of the `for each in deployment_status['Deployments']` scan: the
first record whose `DeploymentId` matches and whose status is terminal
(`successful` or `failed`) decides; matching non-terminal records are only
logged and skipped, non-matching records are skipped. -/
def scan_deployments (did : String) : List DeploymentRecord → Option DeploymentRecord
  | [] => none
  | d :: rest =>
    if d.deploymentId = did ∧ (d.status = "successful" ∨ d.status = "failed") then
      some d
    else
      scan_deployments did rest

/-- Embedding of one iteration of `Operation._poll_deployment_complete`:
`deploy_timeout = some t` models a truthy configured timeout (the source guards
with `bool(self.deploy_timeout) and elapsed_time > float(self.deploy_timeout)`;
`none` models no timeout configured).  On `successful` the source returns,
logging `CompletedAt` and the `.seconds` field of the computed duration; on
`failed` it logs the `.seconds` field and exits; otherwise the timeout guard
runs and the loop sleeps 20 seconds before polling again. -/
def poll_step (deploy_timeout : Option ℚ) (did : String)
    (ds : List DeploymentRecord) (elapsed : ℚ) : PollStepResult :=
  match scan_deployments did ds with
  | some d =>
    if d.status = "successful" then
      .success d.completedAt (timedelta_seconds (get_deployment_duration d))
    else
      .failed (timedelta_seconds (get_deployment_duration d))
  | none =>
    match deploy_timeout with
    | some t => if elapsed > t then .timeoutAbort else .sleep20
    | none => .sleep20

/-- Connection-draining attributes of one load balancer, as read by
`Operation._wait_for_elb` from `describe_load_balancer_attributes`. -/
structure ConnectionDraining where
  enabled : Bool
  timeout : Nat
deriving DecidableEq, Repr

/-- Attributes dictionary of one load balancer: `connectionDraining = none`
models the `'ConnectionDraining' in elb_attributes['LoadBalancerAttributes']`
key being absent. -/
structure LoadBalancerAttributes where
  connectionDraining : Option ConnectionDraining
deriving DecidableEq, Repr

/-- Embedding of `Operation._wait_for_elb` (multi-ELB variant): folds over the
load balancer names accumulating `timeout = max(timeout, draining.Timeout)`
only for balancers with draining enabled, starting from 0; sleeps that
accumulated maximum when positive, else sleeps the fixed 20-second fallback.
The returned value is the number of seconds slept. -/
def wait_for_elb (attrs : String → LoadBalancerAttributes)
    (load_balancer_names : List String) : Nat :=
  let t := load_balancer_names.foldl (fun acc name =>
    match (attrs name).connectionDraining with
    | some cd => if cd.enabled then max acc cd.timeout else acc
    | none => acc) 0
  if t > 0 then t else 20

/-- Definition written from the claim's words (for comparison with
`wait_for_elb`): the maximum, over the named load balancers, of that balancer's
draining timeout if draining is enabled for it, else a 20-second fallback. -/
def claimed_drain_wait (attrs : String → LoadBalancerAttributes)
    (load_balancer_names : List String) : Nat :=
  (load_balancer_names.map (fun name =>
    match (attrs name).connectionDraining with
    | some cd => if cd.enabled then cd.timeout else 20
    | none => 20)).foldl max 0

/-- Definition written from the amended claim's words: the maximum of the
draining timeouts over the balancers with draining enabled, when that maximum
is positive; otherwise the fixed 20-second fallback. -/
def amended_drain_wait (attrs : String → LoadBalancerAttributes)
    (load_balancer_names : List String) : Nat :=
  let m := (load_balancer_names.filterMap (fun name =>
    match (attrs name).connectionDraining with
    | some cd => if cd.enabled then some cd.timeout else none
    | none => none)).foldl max 0
  if 0 < m then m else 20

/-- One entry of `InstanceStates` as returned by `describe_instance_health`
and consumed by `Operation._is_instance_healthy`. -/
structure InstanceState where
  instanceId : String
  state : String
  reasonCode : String
  description : String
deriving DecidableEq, Repr

/-- Embedding of the `for each in instance_health['InstanceStates']` scan in
`Operation._is_instance_healthy`: the first entry whose `InstanceId` matches
decides; no matching entry means the function falls through. -/
def instance_health_scan (iid : String) : List InstanceState → Option InstanceState
  | [] => none
  | e :: rest => if e.instanceId = iid then some e else instance_health_scan iid rest

/-- Embedding of `Operation._is_instance_healthy`: true exactly when the first
matching entry reports state `InService`; false when no entry matches. -/
def is_instance_healthy (states : List InstanceState) (iid : String) : Bool :=
  match instance_health_scan iid states with
  | some e => e.state = "InService"
  | none => false

/-- Message logged by `Operation._is_instance_healthy` for the first matching
entry: the current state, with the reason code and description appended when
the state is not `InService`; `none` when no entry matched (nothing logged). -/
def health_log_message (states : List InstanceState) (iid : String) : Option String :=
  match instance_health_scan iid states with
  | some e =>
    some ("Current instance state is " ++ e.state ++
      (if e.state = "InService" then "" else
        " (" ++ e.reasonCode ++ " - " ++ e.description ++ ")"))
  | none => none

/-- Health-check configuration of one load balancer, as read by
`Operation.post_elb_registration` from `describe_load_balancers`. -/
structure HealthCheck where
  healthyThreshold : Nat
  interval : Nat
deriving DecidableEq, Repr

/-- Embedding of the wait computation in `Operation.post_elb_registration`
(multi-ELB variant): over every returned load balancer description, takes the
maximum of `(HealthyThreshold + 2) * Interval`, starting from 0; the function
then sleeps that many seconds. -/
def post_elb_registration_wait (descs : List HealthCheck) : Nat :=
  descs.foldl (fun acc hc => max acc ((hc.healthyThreshold + 2) * hc.interval)) 0

/-- Definition written from the claim's words (for comparison with
`post_elb_registration_wait`): `(HealthyThreshold + 2) * Interval` computed per
load balancer, taking the maximum across all of them. -/
def spec_health_wait (descs : List HealthCheck) : Nat :=
  (descs.map (fun hc => (hc.healthyThreshold + 2) * hc.interval)).foldl max 0

/-- Embedding of the final loop of `Operation._add_instance_to_elb`: for each
load balancer name in order, poll the instance's health once; on the first
balancer reporting unhealthy, log and `sys.exit(1)` (no further balancer is
polled).  Returns the list of balancers actually polled, in order, and whether
the run survived (`true`) or aborted (`false`).  `healthOf` supplies the
`describe_instance_health` response per balancer name. -/
def health_check_loop (healthOf : String → List InstanceState) (ec2 : String) :
    List String → List String × Bool
  | [] => ([], true)
  | n :: rest =>
    if is_instance_healthy (healthOf n) ec2 then
      let r := health_check_loop healthOf ec2 rest
      (n :: r.1, r.2)
    else ([n], false)

/-- Result of `Operation._add_instance_to_elb`: the balancers the instance was
registered with, the post-registration settle wait in seconds, the balancers
whose health was polled (in order), and whether the run survived. -/
structure AddInstanceResult where
  registered : List String
  settleWait : Nat
  polled : List String
  ok : Bool
deriving DecidableEq, Repr

/-- Embedding of `Operation._add_instance_to_elb`: registers the instance with
every named balancer, sleeps the settle wait computed by
`post_elb_registration`, then runs the single-poll-per-balancer health loop.
`descs` is the `describe_load_balancers` response for the named balancers. -/
def add_instance_to_elb (descs : List HealthCheck)
    (healthOf : String → List InstanceState)
    (load_balancer_names : List String) (ec2 : String) : AddInstanceResult :=
  ⟨load_balancer_names,
   post_elb_registration_wait descs,
   (health_check_loop healthOf ec2 load_balancer_names).1,
   (health_check_loop healthOf ec2 load_balancer_names).2⟩

/-- Target instance record as returned by `describe_instances`:
`ec2InstanceId = none` models an absent `Ec2InstanceId` key (the source reads
it with `.get('Ec2InstanceId', [])`, a sentinel that matches no balancer
member id). -/
structure Instance where
  instanceId : String
  hostname : String
  status : String
  ec2InstanceId : Option String
deriving DecidableEq, Repr

/-- JSON value as handled by Python's `json` module, restricted to the shapes
the deployment payload uses; an object is an ordered association list with
unique keys. -/
inductive JsonVal where
  | bool (b : Bool)
  | str (s : String)
  | num (n : Int)
  | obj (fields : List (String × JsonVal))
deriving Repr

/-- Python dict with string keys and JSON values, as an ordered association
list. -/
abbrev PyDict := List (String × JsonVal)

/-- Python `d[k] = v` on a dict: replaces the value in place when the key
exists, else appends the key at the end. -/
def dict_set (d : PyDict) (k : String) (v : JsonVal) : PyDict :=
  if d.any (fun p => p.1 == k) then
    d.map (fun p => if p.1 == k then (k, v) else p)
  else d ++ [(k, v)]

/-- Python `d.update(new)`: a SHALLOW merge — every key of `new` replaces the
whole corresponding entry of `d`, nested dicts are not merged. -/
def dict_update (d newEntries : PyDict) : PyDict :=
  newEntries.foldl (fun acc p => dict_set acc p.1 p.2) d

/-- Embedding of Python's `str.strip()`: drop leading and trailing
whitespace. -/
def python_strip (s : String) : String :=
  String.mk (((s.data.dropWhile Char.isWhitespace).reverse.dropWhile
    Char.isWhitespace).reverse)

/-- Embedding of Python's `s.strip()[:1]`: the stripped string's first
character as a (possibly empty) string. -/
def stripped_first_char (s : String) : String :=
  String.mk ((python_strip s).data.take 1)

/-- Embedding of `parse_custom_json`: `None` yields the empty dict; otherwise,
when the trimmed input does not start with an opening brace the input is
treated as a file path and its contents are read (`read_file` abstracts
`open(...).read()`); the chosen text is parsed (`json_loads` abstracts
`json.loads`, erring on malformed input). -/
def parse_custom_json (read_file : String → String)
    (json_loads : String → Except String PyDict) :
    Option String → Except String PyDict
  | none => .ok []
  | some s =>
    let json_data := if stripped_first_char s ≠ "\x7b" then read_file s else s
    json_loads json_data

/-- Arguments handed to `create_deployment` by
`Update._create_deployment_arguments`. -/
structure CreateDeploymentArgs where
  stackId : String
  instanceIds : List String
  commandName : String
  comment : String
  customJson : PyDict
deriving Repr

/-- Embedding of `Update._create_deployment_arguments`.  The source builds
`custom = {'dependencies': {'allow_reboot': allow_reboot}}` and then, when an
OS-release override is supplied, executes
`custom_json['dependencies']['os_release_version'] = self.amazon_linux_release`
— subscripting `custom_json`, the raw CLI argument, which is a `str` or
`None`: both raise `TypeError`, modelled as the error outcome.  Without an
override, the caller-supplied custom JSON is parsed and shallow-merged over
`custom` via `dict.update`. -/
def update_create_deployment_arguments (allow_reboot : Bool)
    (amazon_linux_release : Option String) (stack_id : String)
    (instance_ids : List String) (comment : String)
    (read_file : String → String) (json_loads : String → Except String PyDict)
    (custom_json : Option String) : Except String CreateDeploymentArgs :=
  let custom : PyDict :=
    [("dependencies", .obj [("allow_reboot", .bool allow_reboot)])]
  match amazon_linux_release with
  | some _ => .error ("TypeError: custom_json does not support item assignment")
  | none =>
    match parse_custom_json read_file json_loads custom_json with
    | .error e => .error e
    | .ok parsed =>
      .ok ⟨stack_id, instance_ids, "update_dependencies", comment,
        dict_update custom parsed⟩

/-- Embedding of Python's `str.lower()`: lowercase every character. -/
def lowerString (s : String) : String :=
  String.mk (s.data.map Char.toLower)

/-- Directory entry carrying a display name and an opaque id: one element of
the `Stacks` listing (`Name`/`StackId`) or of the `Layers` listing
(`Name`/`LayerId`). -/
structure NamedEntity where
  name : String
  id : String
deriving DecidableEq, Repr

/-- One element of the `Apps` listing (`Shortname`/`AppId`) consumed by
`Deploy.application_id`. -/
structure AppEntity where
  shortname : String
  appId : String
deriving DecidableEq, Repr

/-- Embedding of the lookup loop shared by `Operation.stack_id` and
`Operation.layer_id`: the first entry whose LOWERCASED directory name equals
the query verbatim wins (`self.stack_name == stack['Name'].lower()`); `none`
models the `for/else` fatal not-found path (log, `sys.exit(1)`). -/
def name_lookup_lowered (query : String) : List NamedEntity → Option String
  | [] => none
  | e :: rest =>
    if query = lowerString e.name then some e.id
    else name_lookup_lowered query rest

/-- Definition written from the claim's words (for comparison with
`name_lookup_lowered`): a genuinely case-insensitive exact match, lowering
both sides. -/
def case_insensitive_lookup (query : String) : List NamedEntity → Option String
  | [] => none
  | e :: rest =>
    if lowerString query = lowerString e.name then some e.id
    else case_insensitive_lookup query rest

/-- Embedding of the lookup loop in `Deploy.application_id`: a CASE-SENSITIVE
exact match on the `Shortname` field (`each['Shortname'] ==
self.application_name`); `none` models the fatal not-found path. -/
def application_lookup (appName : String) : List AppEntity → Option String
  | [] => none
  | e :: rest =>
    if e.shortname = appName then some e.appId
    else application_lookup appName rest

/-- Definition written from the claim's words (for comparison with
`application_lookup`): a case-insensitive exact match on the shortname. -/
def case_insensitive_app_lookup (appName : String) : List AppEntity → Option String
  | [] => none
  | e :: rest =>
    if lowerString e.shortname = lowerString appName then some e.appId
    else case_insensitive_app_lookup appName rest

/-- One entry of `ElasticLoadBalancers` as returned by the OpsWorks
`describe_elastic_load_balancers` call: the balancer name and its member EC2
instance ids (`.get('Ec2InstanceIds', [])` makes an absent key an empty
list). -/
structure OpsworksElb where
  name : String
  ec2InstanceIds : List String
deriving DecidableEq, Repr

/-- Inner loop of `Operation._get_opsworks_elb_names`: a stack balancer
qualifies when any of its member EC2 ids occurs among the layer instances'
EC2 ids (instances lacking an `Ec2InstanceId` contribute a sentinel that
matches nothing, modelled by `Option`). -/
def elb_member_overlap (elb : OpsworksElb) (ec2_ids : List (Option String)) : Bool :=
  elb.ec2InstanceIds.any (fun i => ec2_ids.contains (some i))

/-- Stack-wide scan of `Operation._get_opsworks_elb_names`: walks the stack's
balancers in order, skipping any whose name was already collected, and appends
those whose member ids overlap the layer's EC2 ids. -/
def elb_scan (ec2_ids : List (Option String)) :
    List OpsworksElb → List String → List String
  | [], acc => acc
  | elb :: rest, acc =>
    if elb.name ∈ acc then elb_scan ec2_ids rest acc
    else if elb_member_overlap elb ec2_ids then
      elb_scan ec2_ids rest (acc ++ [elb.name])
    else elb_scan ec2_ids rest acc

/-- Embedding of `Operation._get_opsworks_elb_names`: when the layer has
directly attached balancers, only the FIRST one is collected
(`elbs['ElasticLoadBalancers'][0]`); then every balancer of the stack is
scanned and added when its member EC2 ids intersect the layer instances' EC2
ids and its name was not already collected. -/
def get_opsworks_elb_names (layerElbs : List OpsworksElb)
    (layerInstances : List Instance) (stackElbs : List OpsworksElb) : List String :=
  let load_balancer_names : List String :=
    match layerElbs with
    | [] => []
    | e :: _ => [e.name]
  let ec2_ids := layerInstances.map (fun i => i.ec2InstanceId)
  elb_scan ec2_ids stackElbs load_balancer_names

/-- Definition written from the claim's words (for comparison with
`get_opsworks_elb_names`): ALL balancers directly attached to the layer first,
then every stack balancer with overlapping member ids that was not already
found by direct attachment, in discovery order. -/
def claimed_layer_elb_discovery (layerElbs : List OpsworksElb)
    (layerInstances : List Instance) (stackElbs : List OpsworksElb) : List String :=
  let direct := layerElbs.map (fun e => e.name)
  let ec2_ids := layerInstances.map (fun i => i.ec2InstanceId)
  direct ++ (stackElbs.filter (fun elb =>
    !(direct.contains elb.name) && elb_member_overlap elb ec2_ids)).map
      (fun e => e.name)

/-- Embedding of `Operation.layer_at_once`'s target selection: walks the
layer's instances in order and collects the instance ids of those that are
`online` and whose hostname is not excluded (`exclude_hosts = none` is
replaced by the empty list, as in the source). -/
def layer_at_once_instance_ids (instances : List Instance)
    (exclude_hosts : Option (List String)) : List String :=
  let ex := match exclude_hosts with | none => [] | some l => l
  instances.foldl (fun acc i =>
    if i.status = "online" ∧ i.hostname ∉ ex then acc ++ [i.instanceId] else acc) []

/-- Create-deployment calls issued by `Operation.layer_at_once`: the source
makes exactly ONE `_deploy_to` call carrying the whole collected id list. -/
def layer_at_once_calls (instances : List Instance)
    (exclude_hosts : Option (List String)) : List (List String) :=
  [layer_at_once_instance_ids instances exclude_hosts]

/-- Definition written from the claim's words (for comparison with
`layer_at_once_calls`): one deployment per qualifying instance, sequentially. -/
def claimed_all_at_once_calls (instances : List Instance)
    (exclude_hosts : Option (List String)) : List (List String) :=
  (layer_at_once_instance_ids instances exclude_hosts).map (fun iid => [iid])

/-- Embedding of `Operation.instances_at_once`'s target selection: walks the
stack's instances in order and collects the instance ids of those that are
`online` and whose hostname is in the caller-supplied list. -/
def instances_at_once_instance_ids (instances : List Instance)
    (host_names : List String) : List String :=
  instances.foldl (fun acc i =>
    if i.status = "online" ∧ i.hostname ∈ host_names then acc ++ [i.instanceId]
    else acc) []

/-- Create-deployment calls issued by `Operation.instances_at_once`: exactly
one `_deploy_to` call spanning all matched instance ids. -/
def instances_at_once_calls (instances : List Instance)
    (host_names : List String) : List (List String) :=
  [instances_at_once_instance_ids instances host_names]

/-- Embedding of the per-instance loop of `Operation.layer_rolling` in the
case where the layer has associated load balancers: offline instances are
skipped; each online instance is deployed (its id is recorded) and then the
post-deployment hook (`_add_instance_to_elb`) runs, abstracted by `postOk`;
a failing hook exits the process, so no later instance is deployed.  Returns
the deployed instance ids in order and whether the run survived. -/
def layer_rolling_run (instances : List Instance) (postOk : Instance → Bool) :
    List String × Bool :=
  match instances with
  | [] => ([], true)
  | i :: rest =>
    if i.status = "online" then
      if postOk i then
        let r := layer_rolling_run rest postOk
        (i.instanceId :: r.1, r.2)
      else ([i.instanceId], false)
    else layer_rolling_run rest postOk

end EasyDeploy

section DrainLemmas

open EasyDeploy

/-- The accumulating fold in `wait_for_elb` equals a plain max-fold over the
draining timeouts of the balancers with draining enabled, for any start. -/
theorem drain_foldl_eq (attrs : String → LoadBalancerAttributes) :
    ∀ (names : List String) (a : Nat),
      names.foldl (fun acc name =>
        match (attrs name).connectionDraining with
        | some cd => if cd.enabled then max acc cd.timeout else acc
        | none => acc) a
      = ((names.filterMap (fun name =>
          match (attrs name).connectionDraining with
          | some cd => if cd.enabled then some cd.timeout else none
          | none => none)).foldl max a) := by
  intro names
  induction names with
  | nil => intro a; rfl
  | cons n rest ih =>
    intro a
    cases hg : (attrs n).connectionDraining with
    | none => simp [List.filterMap_cons, hg, ih]
    | some cd =>
      by_cases he : cd.enabled <;>
        simp [List.filterMap_cons, hg, he, ih]

/-- Folding `max` over naturals with starting value `a` splits off the start. -/
theorem foldl_max_init (l : List Nat) : ∀ a : Nat, l.foldl max a = max a (l.foldl max 0) := by
  induction l with
  | nil => intro a; simp
  | cons x rest ih =>
    intro a
    simp only [List.foldl_cons]
    rw [ih (max a x), ih (max 0 x)]
    simp [Nat.max_assoc]

/-- Every element of a list of naturals is bounded by the max-fold. -/
theorem le_foldl_max (l : List Nat) : ∀ x ∈ l, x ≤ l.foldl max 0 := by
  induction l with
  | nil => intro x hx; cases hx
  | cons y rest ih =>
    intro x hx
    rw [List.foldl_cons, foldl_max_init]
    rcases List.mem_cons.mp hx with h | h
    · subst h; simp
    · exact le_trans (ih x h) (le_max_right _ _)

/-- The max-fold of a non-empty list of naturals is attained by some element. -/
theorem foldl_max_mem (l : List Nat) (h : l ≠ []) : l.foldl max 0 ∈ l := by
  induction l with
  | nil => exact absurd rfl h
  | cons y rest ih =>
    rw [List.foldl_cons, foldl_max_init, Nat.zero_max]
    rcases eq_or_ne rest [] with hr | hr
    · subst hr; simp
    · rcases Nat.le_total y (rest.foldl max 0) with hle | hle
      · rw [Nat.max_eq_right hle]
        exact List.mem_cons_of_mem y (ih hr)
      · rw [Nat.max_eq_left hle]
        exact List.mem_cons_self y rest

end DrainLemmas

/-- Claim C2 (counterexample): with balancers `a` (draining enabled, timeout
5 s) and `b` (no draining attribute), the code sleeps 5 seconds, while the
claimed formula — maximum over the named balancers of (timeout if enabled else
the 20-second fallback) — gives 20 seconds. -/
theorem C2_counterexample :
    EasyDeploy.wait_for_elb
      (fun name => if name = "a" then ⟨some ⟨true, 5⟩⟩ else ⟨none⟩)
      ["a", "b"] = 5
    ∧ EasyDeploy.claimed_drain_wait
      (fun name => if name = "a" then ⟨some ⟨true, 5⟩⟩ else ⟨none⟩)
      ["a", "b"] = 20
    ∧ (5 : Nat) ≠ 20 := by
  refine ⟨rfl, rfl, ?_⟩
  decide

/-- Claim C2 (amended): the wait after deregistering equals the maximum of the
connection-draining timeouts over the named balancers that have draining
enabled, when that maximum is positive; otherwise — in particular when no named
balancer has draining enabled — it is the fixed 20-second fallback.  It is
never the sum of the individual timeouts. -/
theorem C2_drain_wait_amended (attrs : String → EasyDeploy.LoadBalancerAttributes)
    (names : List String) :
    EasyDeploy.wait_for_elb attrs names = EasyDeploy.amended_drain_wait attrs names := by
  unfold EasyDeploy.wait_for_elb EasyDeploy.amended_drain_wait
  simp only [drain_foldl_eq attrs names 0]

/-- Claim C3: for every non-empty list of load balancer descriptions, the
post-registration settle wait bounds `(HealthyThreshold + 2) * Interval` of
every balancer, is attained by one of them, and equals the maximum across all
of them, exactly as the claim's formula states. -/
theorem C3_health_settle_wait (descs : List EasyDeploy.HealthCheck)
    (h : descs ≠ []) :
    (∀ hc ∈ descs,
        (hc.healthyThreshold + 2) * hc.interval
          ≤ EasyDeploy.post_elb_registration_wait descs)
    ∧ (∃ hc ∈ descs,
        EasyDeploy.post_elb_registration_wait descs
          = (hc.healthyThreshold + 2) * hc.interval)
    ∧ EasyDeploy.post_elb_registration_wait descs
        = EasyDeploy.spec_health_wait descs := by
  have hmap : EasyDeploy.post_elb_registration_wait descs
      = EasyDeploy.spec_health_wait descs := by
    unfold EasyDeploy.post_elb_registration_wait EasyDeploy.spec_health_wait
    rw [List.foldl_map]
  refine ⟨?_, ?_, hmap⟩
  · intro hc hmem
    rw [hmap]
    exact le_foldl_max _ _ (List.mem_map_of_mem _ hmem)
  · have hne : descs.map (fun hc => (hc.healthyThreshold + 2) * hc.interval) ≠ [] := by
      simpa using h
    have := foldl_max_mem _ hne
    rw [List.mem_map] at this
    obtain ⟨hc, hmem, heq⟩ := this
    exact ⟨hc, hmem, by rw [hmap]; exact heq.symm⟩

/-- Witness for C3: two balancers, thresholds 3 and 2, intervals 10 and 30:
the settle wait is `max ((3+2)*10) ((2+2)*30) = 120`, attained by the second. -/
theorem C3_health_settle_wait_witness :
    EasyDeploy.post_elb_registration_wait [⟨3, 10⟩, ⟨2, 30⟩] = 120
    ∧ (∀ hc ∈ ([⟨3, 10⟩, ⟨2, 30⟩] : List EasyDeploy.HealthCheck),
        (hc.healthyThreshold + 2) * hc.interval ≤ 120) := by
  have h := C3_health_settle_wait [⟨3, 10⟩, ⟨2, 30⟩] (by decide)
  have hval : EasyDeploy.post_elb_registration_wait [⟨3, 10⟩, ⟨2, 30⟩] = 120 := rfl
  exact ⟨hval, by rw [hval] at h; exact h.1⟩

section HealthLoopLemmas

open EasyDeploy

/-- The polled list of the health loop is an initial segment of the balancer
names: no balancer is ever polled more than once. -/
theorem health_check_loop_take (healthOf : String → List InstanceState)
    (ec2 : String) :
    ∀ names : List String,
      (health_check_loop healthOf ec2 names).1
        = names.take (health_check_loop healthOf ec2 names).1.length := by
  intro names
  induction names with
  | nil => rfl
  | cons n rest ih =>
    by_cases hh : is_instance_healthy (healthOf n) ec2
    · simp only [health_check_loop, hh, if_true]
      simp only [List.length_cons, List.take_succ_cons, List.cons.injEq, true_and]
      exact ih
    · simp [health_check_loop, hh]

/-- When every named balancer reports the instance in service, the health loop
polls each balancer exactly once, in order, and the run survives. -/
theorem health_check_loop_all_healthy (healthOf : String → List InstanceState)
    (ec2 : String) :
    ∀ names : List String,
      (∀ n ∈ names, is_instance_healthy (healthOf n) ec2 = true) →
      health_check_loop healthOf ec2 names = (names, true) := by
  intro names
  induction names with
  | nil => intro _; rfl
  | cons n rest ih =>
    intro hall
    have hn : is_instance_healthy (healthOf n) ec2 = true :=
      hall n (List.mem_cons_self n rest)
    have hrest := ih (fun m hm => hall m (List.mem_cons_of_mem n hm))
    simp [health_check_loop, hn, hrest]

/-- On the first balancer reporting unhealthy, the health loop stops: it has
polled exactly the preceding balancers and the failing one, and aborts. -/
theorem health_check_loop_first_unhealthy (healthOf : String → List InstanceState)
    (ec2 : String) :
    ∀ (pre : List String) (bad : String) (rest : List String),
      (∀ m ∈ pre, is_instance_healthy (healthOf m) ec2 = true) →
      is_instance_healthy (healthOf bad) ec2 = false →
      health_check_loop healthOf ec2 (pre ++ bad :: rest) = (pre ++ [bad], false) := by
  intro pre
  induction pre with
  | nil =>
    intro bad rest _ hbad
    simp [health_check_loop, hbad]
  | cons p ps ih =>
    intro bad rest hall hbad
    have hp : is_instance_healthy (healthOf p) ec2 = true :=
      hall p (List.mem_cons_self p ps)
    have := ih bad rest (fun m hm => hall m (List.mem_cons_of_mem p hm)) hbad
    simp [health_check_loop, hp, this]

/-- When a rolling run reaches an online instance whose post-deployment hook
fails, the deployed instances are exactly the preceding online ones followed by
the failing one, and the run aborts: every later instance stays undeployed. -/
theorem layer_rolling_run_abort (postOk : Instance → Bool) :
    ∀ (pre : List Instance) (i : Instance) (rest : List Instance),
      (∀ p ∈ pre, p.status = "online" ∧ postOk p = true) →
      i.status = "online" → postOk i = false →
      layer_rolling_run (pre ++ i :: rest) postOk
        = (pre.map (fun p => p.instanceId) ++ [i.instanceId], false) := by
  intro pre
  induction pre with
  | nil =>
    intro i rest _ hon hpost
    simp [layer_rolling_run, hon, hpost]
  | cons p ps ih =>
    intro i rest hall hon hpost
    have hp := hall p (List.mem_cons_self p ps)
    have := ih i rest (fun m hm => hall m (List.mem_cons_of_mem p hm)) hon hpost
    simp [layer_rolling_run, hp.1, hp.2, this]

end HealthLoopLemmas

/-- Claim C4: after the settle wait, `_add_instance_to_elb` polls the
re-registered instance's health once per load balancer, in order, with no
retry: the polled list is an initial segment of the names (no balancer polled
twice); when every balancer reports `InService` each is polled exactly once and
the run continues; on the first balancer reporting otherwise the run aborts
having polled only the balancers up to and including it, the log carries the
last-known state with its reason code and description, and in the rolling
sequence every instance after the aborting one stays undeployed. -/
theorem C4_health_poll_once_and_abort (descs : List EasyDeploy.HealthCheck)
    (healthOf : String → List EasyDeploy.InstanceState)
    (names : List String) (ec2 : String) :
    ((EasyDeploy.add_instance_to_elb descs healthOf names ec2).polled
        = names.take
            (EasyDeploy.add_instance_to_elb descs healthOf names ec2).polled.length)
    ∧ ((∀ n ∈ names, EasyDeploy.is_instance_healthy (healthOf n) ec2 = true) →
        (EasyDeploy.add_instance_to_elb descs healthOf names ec2).polled = names
        ∧ (EasyDeploy.add_instance_to_elb descs healthOf names ec2).ok = true)
    ∧ (∀ (pre : List String) (bad : String) (rest : List String),
        names = pre ++ bad :: rest →
        (∀ m ∈ pre, EasyDeploy.is_instance_healthy (healthOf m) ec2 = true) →
        EasyDeploy.is_instance_healthy (healthOf bad) ec2 = false →
        (EasyDeploy.add_instance_to_elb descs healthOf names ec2).polled = pre ++ [bad]
        ∧ (EasyDeploy.add_instance_to_elb descs healthOf names ec2).ok = false)
    ∧ (∀ (n : String) (e : EasyDeploy.InstanceState),
        EasyDeploy.instance_health_scan ec2 (healthOf n) = some e →
        e.state ≠ "InService" →
        EasyDeploy.health_log_message (healthOf n) ec2
          = some ("Current instance state is " ++ e.state ++
              " (" ++ e.reasonCode ++ " - " ++ e.description ++ ")"))
    ∧ (∀ (postOk : EasyDeploy.Instance → Bool) (pre : List EasyDeploy.Instance)
          (i : EasyDeploy.Instance) (rest : List EasyDeploy.Instance),
        (∀ p ∈ pre, p.status = "online" ∧ postOk p = true) →
        i.status = "online" → postOk i = false →
        EasyDeploy.layer_rolling_run (pre ++ i :: rest) postOk
          = (pre.map (fun p => p.instanceId) ++ [i.instanceId], false)) := by
  refine ⟨?_, ?_, ?_, ?_, ?_⟩
  · exact health_check_loop_take healthOf ec2 names
  · intro hall
    have := health_check_loop_all_healthy healthOf ec2 names hall
    constructor
    · show (EasyDeploy.health_check_loop healthOf ec2 names).1 = names
      rw [this]
    · show (EasyDeploy.health_check_loop healthOf ec2 names).2 = true
      rw [this]
  · intro pre bad rest hsplit hall hbad
    have := health_check_loop_first_unhealthy healthOf ec2 pre bad rest hall hbad
    subst hsplit
    constructor
    · show (EasyDeploy.health_check_loop healthOf ec2 (pre ++ bad :: rest)).1 = pre ++ [bad]
      rw [this]
    · show (EasyDeploy.health_check_loop healthOf ec2 (pre ++ bad :: rest)).2 = false
      rw [this]
  · intro n e hscan hstate
    unfold EasyDeploy.health_log_message
    rw [hscan]
    simp [hstate, String.append_assoc]
  · exact fun postOk => layer_rolling_run_abort postOk

/-- Witness for C4: two balancers, the instance unhealthy on the first: only
the first balancer is polled, the run aborts, and the log carries the state
with reason and description. -/
theorem C4_health_poll_once_and_abort_witness :
    (EasyDeploy.add_instance_to_elb []
      (fun _ => [⟨"e1", "OutOfService", "Instance", "Instance has failed"⟩])
      ["lbA", "lbB"] ("e1")).polled = ["lbA"]
    ∧ (EasyDeploy.add_instance_to_elb []
      (fun _ => [⟨"e1", "OutOfService", "Instance", "Instance has failed"⟩])
      ["lbA", "lbB"] ("e1")).ok = false
    ∧ EasyDeploy.health_log_message
        [⟨"e1", "OutOfService", "Instance", "Instance has failed"⟩] ("e1")
        = some ("Current instance state is OutOfService (Instance - Instance has failed)") := by
  have h := C4_health_poll_once_and_abort []
    (fun _ => [⟨"e1", "OutOfService", "Instance", "Instance has failed"⟩])
    ["lbA", "lbB"] ("e1")
  have habort := h.2.2.1 [] ("lbA") ["lbB"] rfl (by intro m hm; cases hm) (by decide)
  have hlog := h.2.2.2.1 ("lbA") ⟨"e1", "OutOfService", "Instance", "Instance has failed"⟩
    rfl (by decide)
  exact ⟨habort.1, habort.2, hlog⟩

/-- Claim C1 (code bug evidence): for a deployment observed `successful` with
`CreatedAt = 0` and `CompletedAt = 86401` (one day and one second), the polling
loop returns normally but logs a duration of 1 second — the `.seconds` field of
the timedelta — while `CompletedAt - CreatedAt`, which
`_get_deployment_duration` itself computes and the claim requires to be logged,
is 86401.  The code truncates the logged duration modulo 86400. -/
theorem C1_duration_log_truncated_at_one_day :
    EasyDeploy.poll_step none ("d-1")
      [⟨"d-1", "successful", 0, 86401⟩] 0
      = .success 86401 1
    ∧ EasyDeploy.get_deployment_duration ⟨"d-1", "successful", 0, 86401⟩ = 86401
    ∧ (1 : Int) ≠ 86401 := by
  refine ⟨rfl, rfl, ?_⟩
  decide

/-- Claim C10: whenever the deployment scan observes a terminal record, the
success or failure branch is taken — the poll step is never the timeout abort
and never the sleep-and-repeat — for every configured timeout and every elapsed
time, because the timeout guard sits after the scan and is only reached when no
terminal status was observed. -/
theorem C10_terminal_ignores_timeout (tmo : Option ℚ) (did : String)
    (ds : List EasyDeploy.DeploymentRecord) (elapsed : ℚ)
    (d : EasyDeploy.DeploymentRecord)
    (hscan : EasyDeploy.scan_deployments did ds = some d) :
    EasyDeploy.poll_step tmo did ds elapsed ≠ .timeoutAbort
    ∧ EasyDeploy.poll_step tmo did ds elapsed ≠ .sleep20
    ∧ (d.status = "successful" →
        EasyDeploy.poll_step tmo did ds elapsed
          = .success d.completedAt
              (EasyDeploy.timedelta_seconds (EasyDeploy.get_deployment_duration d)))
    ∧ (d.status = "failed" →
        EasyDeploy.poll_step tmo did ds elapsed
          = .failed (EasyDeploy.timedelta_seconds (EasyDeploy.get_deployment_duration d))) := by
  unfold EasyDeploy.poll_step
  rw [hscan]
  by_cases hs : d.status = "successful"
  · simp [hs]
  · simp [hs]

/-- Witness for C10: a deployment observed `successful` when the elapsed time
(100 s) already exceeds the configured timeout (5 s) still takes the success
branch and never reports a timeout. -/
theorem C10_terminal_ignores_timeout_witness :
    EasyDeploy.poll_step (some 5) ("d-1")
      [⟨"d-1", "successful", 0, 30⟩] 100
      = .success 30 30 := by
  have h := C10_terminal_ignores_timeout (some 5) ("d-1")
    [⟨"d-1", "successful", 0, 30⟩] 100
    ⟨"d-1", "successful", 0, 30⟩ rfl
  exact h.2.2.1 rfl

section ElbScanLemmas

open EasyDeploy

/-- The stack scan only appends to its accumulator. -/
theorem elb_scan_append (ec2_ids : List (Option String)) :
    ∀ (l : List OpsworksElb) (acc : List String),
      ∃ t, elb_scan ec2_ids l acc = acc ++ t := by
  intro l
  induction l with
  | nil => intro acc; exact ⟨[], by simp [elb_scan]⟩
  | cons elb rest ih =>
    intro acc
    by_cases hmem : elb.name ∈ acc
    · obtain ⟨t, ht⟩ := ih acc
      exact ⟨t, by simp [elb_scan, hmem, ht]⟩
    · by_cases hov : elb_member_overlap elb ec2_ids
      · obtain ⟨t, ht⟩ := ih (acc ++ [elb.name])
        exact ⟨elb.name :: t, by simp [elb_scan, hmem, hov, ht]⟩
      · obtain ⟨t, ht⟩ := ih acc
        exact ⟨t, by simp [elb_scan, hmem, hov, ht]⟩

/-- Membership in the stack-scan result: a name is collected exactly when it
was already in the accumulator or some scanned balancer carries it and has
overlapping member ids. -/
theorem elb_scan_mem (ec2_ids : List (Option String)) :
    ∀ (l : List OpsworksElb) (acc : List String) (n : String),
      n ∈ elb_scan ec2_ids l acc
        ↔ n ∈ acc ∨ ∃ elb ∈ l, elb.name = n ∧ elb_member_overlap elb ec2_ids = true := by
  intro l
  induction l with
  | nil => intro acc n; simp [elb_scan]
  | cons elb rest ih =>
    intro acc n
    by_cases hmem : elb.name ∈ acc
    · rw [show elb_scan ec2_ids (elb :: rest) acc = elb_scan ec2_ids rest acc from by
        simp [elb_scan, hmem], ih acc n]
      constructor
      · rintro (h | h)
        · exact Or.inl h
        · exact Or.inr (by
            obtain ⟨e, he, hn, ho⟩ := h
            exact ⟨e, List.mem_cons_of_mem elb he, hn, ho⟩)
      · rintro (h | ⟨e, he, hn, ho⟩)
        · exact Or.inl h
        · rcases List.mem_cons.mp he with rfl | he2
          · exact Or.inl (hn ▸ hmem)
          · exact Or.inr ⟨e, he2, hn, ho⟩
    · by_cases hov : elb_member_overlap elb ec2_ids
      · rw [show elb_scan ec2_ids (elb :: rest) acc
            = elb_scan ec2_ids rest (acc ++ [elb.name]) from by
          simp [elb_scan, hmem, hov], ih (acc ++ [elb.name]) n]
        simp only [List.mem_append, List.mem_singleton]
        constructor
        · rintro ((h | h) | h)
          · exact Or.inl h
          · exact Or.inr ⟨elb, List.mem_cons_self elb rest, h.symm, hov⟩
          · obtain ⟨e, he, hn, ho⟩ := h
            exact Or.inr ⟨e, List.mem_cons_of_mem elb he, hn, ho⟩
        · rintro (h | ⟨e, he, hn, ho⟩)
          · exact Or.inl (Or.inl h)
          · rcases List.mem_cons.mp he with rfl | he2
            · exact Or.inl (Or.inr hn.symm)
            · exact Or.inr ⟨e, he2, hn, ho⟩
      · rw [show elb_scan ec2_ids (elb :: rest) acc = elb_scan ec2_ids rest acc from by
          simp [elb_scan, hmem, hov], ih acc n]
        constructor
        · rintro (h | ⟨e, he, hn, ho⟩)
          · exact Or.inl h
          · exact Or.inr ⟨e, List.mem_cons_of_mem elb he, hn, ho⟩
        · rintro (h | ⟨e, he, hn, ho⟩)
          · exact Or.inl h
          · rcases List.mem_cons.mp he with rfl | he2
            · exact absurd ho (by simpa using hov)
            · exact Or.inr ⟨e, he2, hn, ho⟩

/-- The stack scan never introduces a duplicate name. -/
theorem elb_scan_nodup (ec2_ids : List (Option String)) :
    ∀ (l : List OpsworksElb) (acc : List String),
      acc.Nodup → (elb_scan ec2_ids l acc).Nodup := by
  intro l
  induction l with
  | nil => intro acc h; simpa [elb_scan] using h
  | cons elb rest ih =>
    intro acc hacc
    by_cases hmem : elb.name ∈ acc
    · simpa [elb_scan, hmem] using ih acc hacc
    · by_cases hov : elb_member_overlap elb ec2_ids
      · have hnew : (acc ++ [elb.name]).Nodup := by
          simp [List.nodup_append, hacc, hmem]
        simpa [elb_scan, hmem, hov] using ih (acc ++ [elb.name]) hnew
      · simpa [elb_scan, hmem, hov] using ih acc hacc

end ElbScanLemmas

/-- Claim C5 (counterexample): for a layer with TWO directly attached load
balancers `d1` and `d2` (and nothing else), the code returns only `d1` — it
reads `ElasticLoadBalancers[0]` — while the claim's formula returns both. -/
theorem C5_counterexample :
    EasyDeploy.get_opsworks_elb_names [⟨"d1", []⟩, ⟨"d2", []⟩] [] [] = ["d1"]
    ∧ EasyDeploy.claimed_layer_elb_discovery [⟨"d1", []⟩, ⟨"d2", []⟩] [] []
        = ["d1", "d2"]
    ∧ ("d2") ∉ EasyDeploy.get_opsworks_elb_names [⟨"d1", []⟩, ⟨"d2", []⟩] [] [] := by
  refine ⟨rfl, rfl, ?_⟩
  decide

/-- Claim C5 (amended): `discoverLayerLoadBalancers` returns the FIRST load
balancer directly attached to the layer (if any) first, then every load
balancer of the stack whose member EC2 ids intersect the layer instances' EC2
ids, in discovery order, skipping any name already collected; the result has
no duplicates, and a name appears exactly when it is the first direct
attachment or a stack balancer with overlapping member ids. -/
theorem C5_layer_elb_discovery_amended (layerElbs : List EasyDeploy.OpsworksElb)
    (insts : List EasyDeploy.Instance) (stackElbs : List EasyDeploy.OpsworksElb) :
    (∀ n, n ∈ EasyDeploy.get_opsworks_elb_names layerElbs insts stackElbs
        ↔ ((∃ e, layerElbs.head? = some e ∧ e.name = n)
            ∨ ∃ elb ∈ stackElbs, elb.name = n
                ∧ EasyDeploy.elb_member_overlap elb
                    (insts.map (fun i => i.ec2InstanceId)) = true))
    ∧ (EasyDeploy.get_opsworks_elb_names layerElbs insts stackElbs).Nodup
    ∧ (∀ e, layerElbs.head? = some e →
        (EasyDeploy.get_opsworks_elb_names layerElbs insts stackElbs).head?
          = some e.name) := by
  refine ⟨?_, ?_, ?_⟩
  · intro n
    cases layerElbs with
    | nil =>
      rw [show EasyDeploy.get_opsworks_elb_names [] insts stackElbs
          = EasyDeploy.elb_scan (insts.map (fun i => i.ec2InstanceId)) stackElbs []
        from rfl]
      rw [elb_scan_mem]
      simp
    | cons e0 tail =>
      rw [show EasyDeploy.get_opsworks_elb_names (e0 :: tail) insts stackElbs
          = EasyDeploy.elb_scan (insts.map (fun i => i.ec2InstanceId)) stackElbs [e0.name]
        from rfl]
      rw [elb_scan_mem]
      simp only [List.mem_singleton, List.head?_cons, Option.some.injEq]
      constructor
      · rintro (rfl | h)
        · exact Or.inl ⟨e0, rfl, rfl⟩
        · exact Or.inr h
      · rintro (⟨e, he, hn⟩ | h)
        · exact Or.inl (by rw [he]; exact hn.symm)
        · exact Or.inr h
  · cases layerElbs with
    | nil => exact elb_scan_nodup _ stackElbs [] (by simp)
    | cons e0 tail => exact elb_scan_nodup _ stackElbs [e0.name] (by simp)
  · intro e he
    cases layerElbs with
    | nil => cases he
    | cons e0 tail =>
      have he0 : e0 = e := by simpa using he
      subst he0
      obtain ⟨t, ht⟩ := elb_scan_append (insts.map (fun i => i.ec2InstanceId))
        stackElbs [e0.name]
      rw [show EasyDeploy.get_opsworks_elb_names (e0 :: tail) insts stackElbs
          = EasyDeploy.elb_scan (insts.map (fun i => i.ec2InstanceId)) stackElbs [e0.name]
        from rfl, ht]
      rfl

/-- Witness for C5 (amended): with direct balancer `d1`, a stack balancer `s1`
sharing EC2 id `i1` with the layer, and an unrelated stack balancer `s2`, the
discovery returns `d1` first, contains `s1` and not `s2`, and has no
duplicates. -/
theorem C5_layer_elb_discovery_amended_witness :
    (EasyDeploy.get_opsworks_elb_names [⟨"d1", []⟩]
        [⟨"op1", "h1", "online", some ("i1")⟩]
        [⟨"s1", ["i1"]⟩, ⟨"s2", ["i9"]⟩]).head? = some ("d1")
    ∧ ("s1") ∈ EasyDeploy.get_opsworks_elb_names [⟨"d1", []⟩]
        [⟨"op1", "h1", "online", some ("i1")⟩]
        [⟨"s1", ["i1"]⟩, ⟨"s2", ["i9"]⟩]
    ∧ ("s2") ∉ EasyDeploy.get_opsworks_elb_names [⟨"d1", []⟩]
        [⟨"op1", "h1", "online", some ("i1")⟩]
        [⟨"s1", ["i1"]⟩, ⟨"s2", ["i9"]⟩] := by
  have h := C5_layer_elb_discovery_amended [⟨"d1", []⟩]
    [⟨"op1", "h1", "online", some ("i1")⟩]
    [⟨"s1", ["i1"]⟩, ⟨"s2", ["i9"]⟩]
  refine ⟨h.2.2 ⟨"d1", []⟩ rfl, ?_, ?_⟩
  · exact (h.1 ("s1")).mpr (Or.inr ⟨⟨"s1", ["i1"]⟩, by decide, rfl, by decide⟩)
  · intro hmem
    rcases (h.1 ("s2")).mp hmem with ⟨e, he, hn⟩ | ⟨elb, helb, hn, ho⟩
    · have hd : (⟨"d1", []⟩ : EasyDeploy.OpsworksElb) = e := by simpa using he
      rw [← hd] at hn
      exact absurd hn (by decide)
    · have h2 : elb = ⟨"s1", ["i1"]⟩ ∨ elb = ⟨"s2", ["i9"]⟩ := by
        simpa using helb
      rcases h2 with rfl | rfl
      · exact absurd hn (by decide)
      · exact absurd ho (by decide)

/-- Claim C6 (counterexample): the lookups are not case-insensitive.  The stack
query `TestStack` does not resolve against a directory entry named `TestStack`
(the code lowercases only the directory side, so the mixed-case query can never
match), and the application query `myapp` does not resolve against the
shortname `MyApp` (that lookup is fully case-sensitive) — while a genuinely
case-insensitive match finds both. -/
theorem C6_counterexample :
    EasyDeploy.name_lookup_lowered ("TestStack") [⟨"TestStack", "sid"⟩] = none
    ∧ EasyDeploy.case_insensitive_lookup ("TestStack") [⟨"TestStack", "sid"⟩]
        = some ("sid")
    ∧ EasyDeploy.application_lookup ("myapp") [⟨"MyApp", "aid"⟩] = none
    ∧ EasyDeploy.case_insensitive_app_lookup ("myapp") [⟨"MyApp", "aid"⟩]
        = some ("aid") := by
  exact ⟨rfl, rfl, rfl, rfl⟩

/-- Claim C6 (amended): stack and layer lookups compare the supplied name
verbatim against the LOWERCASED directory name — deterministic, first match
wins, case-insensitive in the directory entry but only ever matching when the
supplied name is already lowercase (for lowercase queries the lookup coincides
with a genuinely case-insensitive one); the application lookup is a
case-sensitive exact match on the shortname field; in each case, a listing
with no such match yields the fatal not-found path exactly once, modelled by
the `none` result. -/
theorem C6_lookup_amended (q : String) (l : List EasyDeploy.NamedEntity)
    (al : List EasyDeploy.AppEntity) :
    (EasyDeploy.name_lookup_lowered q l = none
        ↔ ∀ e ∈ l, q ≠ EasyDeploy.lowerString e.name)
    ∧ (EasyDeploy.lowerString q = q →
        EasyDeploy.name_lookup_lowered q l = EasyDeploy.case_insensitive_lookup q l)
    ∧ (EasyDeploy.application_lookup q al = none ↔ ∀ e ∈ al, e.shortname ≠ q) := by
  refine ⟨?_, ?_, ?_⟩
  · induction l with
    | nil => simp [EasyDeploy.name_lookup_lowered]
    | cons e rest ih =>
      by_cases h : q = EasyDeploy.lowerString e.name
      · simp [EasyDeploy.name_lookup_lowered, h]
      · simp [EasyDeploy.name_lookup_lowered, h, ih]
  · intro hq
    induction l with
    | nil => rfl
    | cons e rest ih =>
      have hcond : (q = EasyDeploy.lowerString e.name)
          ↔ (EasyDeploy.lowerString q = EasyDeploy.lowerString e.name) := by
        constructor
        · intro h; exact hq.trans h
        · intro h; exact hq.symm.trans h
      by_cases h : q = EasyDeploy.lowerString e.name
      · show (if q = EasyDeploy.lowerString e.name then some e.id
            else EasyDeploy.name_lookup_lowered q rest)
          = (if EasyDeploy.lowerString q = EasyDeploy.lowerString e.name then some e.id
            else EasyDeploy.case_insensitive_lookup q rest)
        rw [if_pos h, if_pos (hcond.mp h)]
      · show (if q = EasyDeploy.lowerString e.name then some e.id
            else EasyDeploy.name_lookup_lowered q rest)
          = (if EasyDeploy.lowerString q = EasyDeploy.lowerString e.name then some e.id
            else EasyDeploy.case_insensitive_lookup q rest)
        rw [if_neg h, if_neg (fun hh => h (hcond.mpr hh))]
        exact ih
  · induction al with
    | nil => simp [EasyDeploy.application_lookup]
    | cons e rest ih =>
      by_cases h : e.shortname = q
      · simp [EasyDeploy.application_lookup, h]
      · simp [EasyDeploy.application_lookup, h, ih]

/-- Witness for C6 (amended): a lowercase stack query behaves exactly like a
case-insensitive lookup, and an application listing without the queried
shortname yields the not-found path. -/
theorem C6_lookup_amended_witness :
    EasyDeploy.name_lookup_lowered ("teststack") [⟨"TestStack", "sid"⟩]
      = EasyDeploy.case_insensitive_lookup ("teststack") [⟨"TestStack", "sid"⟩]
    ∧ EasyDeploy.application_lookup ("nosuch") [⟨"MyApp", "aid"⟩] = none := by
  constructor
  · exact (C6_lookup_amended ("teststack") [⟨"TestStack", "sid"⟩] []).2.1 rfl
  · exact (C6_lookup_amended ("nosuch") [] [⟨"MyApp", "aid"⟩]).2.2.mpr (by decide)

section StrategyLemmas

open EasyDeploy

/-- The id-collecting fold of the all-at-once strategy equals filtering the
qualifying instances and taking their ids, for any accumulator. -/
theorem layer_at_once_fold_eq (exL : List String) :
    ∀ (instances : List Instance) (acc : List String),
      instances.foldl (fun acc i =>
        if i.status = "online" ∧ i.hostname ∉ exL then acc ++ [i.instanceId]
        else acc) acc
      = acc ++ (instances.filter (fun i =>
          decide (i.status = "online" ∧ i.hostname ∉ exL))).map
            (fun i => i.instanceId) := by
  intro instances
  induction instances with
  | nil => intro acc; simp
  | cons i rest ih =>
    intro acc
    by_cases hp : i.status = "online" ∧ i.hostname ∉ exL
    · simp only [List.foldl_cons, if_pos hp, ih, List.filter_cons]
      simp [hp]
    · simp only [List.foldl_cons, if_neg hp, ih, List.filter_cons]
      simp [hp]

/-- The id-collecting fold of the explicit-hosts strategy equals filtering the
qualifying instances and taking their ids, for any accumulator. -/
theorem instances_at_once_fold_eq (hosts : List String) :
    ∀ (instances : List Instance) (acc : List String),
      instances.foldl (fun acc i =>
        if i.status = "online" ∧ i.hostname ∈ hosts then acc ++ [i.instanceId]
        else acc) acc
      = acc ++ (instances.filter (fun i =>
          decide (i.status = "online" ∧ i.hostname ∈ hosts))).map
            (fun i => i.instanceId) := by
  intro instances
  induction instances with
  | nil => intro acc; simp
  | cons i rest ih =>
    intro acc
    by_cases hp : i.status = "online" ∧ i.hostname ∈ hosts
    · simp only [List.foldl_cons, if_pos hp, ih, List.filter_cons]
      simp [hp]
    · simp only [List.foldl_cons, if_neg hp, ih, List.filter_cons]
      simp [hp]

end StrategyLemmas

/-- Claim C7 (counterexample): with two online, non-excluded instances the
all-at-once strategy issues a SINGLE create-deployment call spanning both
instance ids — not one deployment per qualifying instance as claimed. -/
theorem C7_counterexample :
    EasyDeploy.layer_at_once_calls
      [⟨"op-1", "h1", "online", none⟩, ⟨"op-2", "h2", "online", none⟩] none
      = [["op-1", "op-2"]]
    ∧ EasyDeploy.claimed_all_at_once_calls
      [⟨"op-1", "h1", "online", none⟩, ⟨"op-2", "h2", "online", none⟩] none
      = [["op-1"], ["op-2"]]
    ∧ (EasyDeploy.layer_at_once_calls
        [⟨"op-1", "h1", "online", none⟩, ⟨"op-2", "h2", "online", none⟩] none).length
        = 1 := by
  exact ⟨rfl, rfl, rfl⟩

/-- Claim C7 (amended): the all-at-once strategy targets exactly the instances
of the layer that are `online` and whose hostname is not in the exclusion
list, and dispatches a SINGLE deployment call spanning all of their instance
ids (so an excluded hostname's instance, even if online, contributes no id);
there is no per-instance dispatch and no load-balancer interaction in this
code path. -/
theorem C7_all_at_once_amended (instances : List EasyDeploy.Instance)
    (exclude_hosts : Option (List String)) :
    EasyDeploy.layer_at_once_calls instances exclude_hosts
      = [EasyDeploy.layer_at_once_instance_ids instances exclude_hosts]
    ∧ (EasyDeploy.layer_at_once_calls instances exclude_hosts).length = 1
    ∧ ∀ x, x ∈ EasyDeploy.layer_at_once_instance_ids instances exclude_hosts
        ↔ ∃ i ∈ instances,
            (i.status = "online"
              ∧ i.hostname ∉ (match exclude_hosts with | none => [] | some l => l))
            ∧ i.instanceId = x := by
  refine ⟨rfl, rfl, ?_⟩
  intro x
  simp only [EasyDeploy.layer_at_once_instance_ids]
  rw [layer_at_once_fold_eq]
  simp [List.mem_filter, and_assoc]

/-- Claim C8: the explicit-hosts strategy issues exactly one create-deployment
call, spanning precisely the instance ids of the stack instances whose
hostname is in the caller-supplied list and whose status is `online`; in the
spec's concrete scenario — hosts `h1`, `h2` with only `h1`'s instance online —
that single call targets only `h1`'s instance id. -/
theorem C8_explicit_hosts_single_call (instances : List EasyDeploy.Instance)
    (host_names : List String) :
    EasyDeploy.instances_at_once_calls instances host_names
      = [EasyDeploy.instances_at_once_instance_ids instances host_names]
    ∧ (EasyDeploy.instances_at_once_calls instances host_names).length = 1
    ∧ (∀ x, x ∈ EasyDeploy.instances_at_once_instance_ids instances host_names
        ↔ ∃ i ∈ instances,
            (i.status = "online" ∧ i.hostname ∈ host_names) ∧ i.instanceId = x)
    ∧ EasyDeploy.instances_at_once_calls
        [⟨"i-1", "h1", "online", none⟩, ⟨"i-2", "h2", "stopped", none⟩]
        ["h1", "h2"]
        = [["i-1"]] := by
  refine ⟨rfl, rfl, ?_, rfl⟩
  intro x
  simp only [EasyDeploy.instances_at_once_instance_ids]
  rw [instances_at_once_fold_eq]
  simp [List.mem_filter, and_assoc]

/-- Claim C9 (code bug evidence): supplying an OS-release override makes
`Update._create_deployment_arguments` subscript the raw `custom_json` CLI
argument (a string or `None`) and raise `TypeError` — the payload is never
built, so it cannot carry `dependencies.os_release_version`.  Moreover, even
without an override the payload does not always carry
`dependencies.allow_reboot`: caller-supplied custom JSON containing a
`dependencies` key replaces the whole built entry under `dict.update`'s
shallow merge. -/
theorem C9_update_arguments_type_error :
    EasyDeploy.update_create_deployment_arguments true (some ("2014.09"))
      ("stack-1") [("i-1")] ("c") (fun _ => "") (fun _ => .ok []) none
      = .error ("TypeError: custom_json does not support item assignment")
    ∧ EasyDeploy.update_create_deployment_arguments true none
      ("stack-1") [("i-1")] ("c") (fun _ => "")
      (fun _ => .ok [("dependencies", .obj [("foo", .num 1)])])
      (some ("\x7b\"dependencies\": \x7b\"foo\": 1\x7d\x7d"))
      = .ok ⟨"stack-1", ["i-1"], "update_dependencies", "c",
          [("dependencies", .obj [("foo", .num 1)])]⟩ := by
  exact ⟨rfl, rfl⟩
